import Mathlib

/-!
Verification of the bus-arbitration and controller-lifecycle layer of the
magnesium daughterboard manager (`src/mpm/lib/dboards/magnesium_manager.cpp`).

The constructor under verification is

  magnesium_manager::magnesium_manager(const std::string &mykonos_spidev)
    : _spi_mutex(std::make_shared<std::mutex>())
    , _spi_lock(mpm::types::lockable::make(_spi_mutex))
    , _mykonos_ctrl(ad937x_ctrl::make(
          _spi_mutex,
          make_ad937x_iface(mykonos_spidev),
          mpm::ad937x::gpio::gain_pins_t()))
  \x7b \x7d

We embed `std::make_shared<std::mutex>` as an allocation of a fresh identifier
drawn from a monotone counter: two mutexes are the same primitive exactly when
their identifiers coincide.  Lock state is kept outside the mutex value, as a
map from identifiers to the (optional) holding thread, so that sharing and
freshness are observable.
-/

/-- A `std::mutex` allocated by `std::make_shared`, identified by its
allocation address.  Its lock state lives in a separate `LockMap`. -/
structure StdMutex where
  id : Nat
deriving DecidableEq, Repr

/-- Embedding of `std::make_shared<std::mutex>()`: returns a fresh primitive
and the advanced allocation counter.  Freshness: the returned identifier
equals the counter, which every previously allocated mutex is below. -/
def make_shared_mutex (alloc : Nat) : StdMutex × Nat :=
  (⟨alloc⟩, alloc + 1)

/-- Lock state of every allocated mutex: identifier of the holding thread, or
`none` when the mutex is free.  Identifiers not yet allocated map to `none`. -/
def LockMap : Type := Nat → Option Nat

/-- Locking mutex `m` for thread `t` (the state change of a successful
`mutex.lock()`). -/
def mutexAcquire (L : LockMap) (m t : Nat) : LockMap :=
  fun m2 => if m2 = m then some t else L m2

/-- Unlocking mutex `m` (the state change of `mutex.unlock()`). -/
def mutexRelease (L : LockMap) (m : Nat) : LockMap :=
  fun m2 => if m2 = m then none else L m2

/-- Embedding of `mpm::types::lockable`: a shared-ownership wrapper around one
mutual-exclusion primitive; its identity for arbitration purposes is the
primitive it wraps. -/
structure lockable where
  mutex : Nat
deriving DecidableEq, Repr

/-- Embedding of `lockable::make(mutex)`: wrap the given shared primitive. -/
def lockable.make (m : StdMutex) : lockable :=
  ⟨m.id⟩

/-- Embedding of `mpm::ad937x::gpio::gain_pins_t`: chip-specific gain-pin
configuration, treated as opaque validated data; `gain_pins_t()` is its
default constructor. -/
structure gain_pins_t where
  pins : List Nat
deriving DecidableEq, Repr

/-- The default-constructed `gain_pins_t()` value: no pin assignments. -/
def gain_pins_default : gain_pins_t :=
  ⟨[]⟩

/-- The SPI transport session produced by `make_ad937x_iface`, determined by
the device-node path it opens. -/
structure ad937x_iface where
  spidev : String
deriving DecidableEq, Repr

/-- Embedding of `make_ad937x_iface(spidev)`: open the SPI transport on the
named device. -/
def make_ad937x_iface (spidev : String) : ad937x_iface :=
  ⟨spidev⟩

/-- Embedding of `mpm::chips::ad937x_ctrl`: the Mykonos chip controller,
holding a shared reference to the SPI arbitration primitive, its bus
transport, and its gain-pin configuration. -/
structure ad937x_ctrl where
  spi_mutex : Nat
  iface : ad937x_iface
  gain_pins : gain_pins_t
deriving DecidableEq, Repr

/-- Embedding of `ad937x_ctrl::make(mutex, iface, gain_pins)`. -/
def ad937x_ctrl.make (m : StdMutex) (i : ad937x_iface) (g : gain_pins_t) :
    ad937x_ctrl :=
  ⟨m.id, i, g⟩

/-- Embedding of `mpm::dboards::magnesium_manager`: members in declaration
order, which is the member-initializer order of the constructor. -/
structure magnesium_manager where
  _spi_mutex : Nat
  _spi_lock : lockable
  _mykonos_ctrl : ad937x_ctrl
deriving DecidableEq, Repr

/-- The constructor `magnesium_manager::magnesium_manager(mykonos_spidev)`:
allocate one fresh mutex, wrap it in the `lockable`, and build the one chip
controller against the same mutex, the transport opened on `mykonos_spidev`,
and a default-constructed `gain_pins_t()`.  The allocation counter is threaded
through. -/
def magnesium_manager.construct (mykonos_spidev : String) (alloc : Nat) :
    magnesium_manager × Nat :=
  let mk := make_shared_mutex alloc
  ({ _spi_mutex := mk.1.id,
     _spi_lock := lockable.make mk.1,
     _mykonos_ctrl :=
       ad937x_ctrl.make mk.1 (make_ad937x_iface mykonos_spidev)
         gain_pins_default },
   mk.2)

/-- The chip controllers a constructed manager exposes: exactly its
`_mykonos_ctrl` member. -/
def magnesium_manager.controllers (mgr : magnesium_manager) : List ad937x_ctrl :=
  [mgr._mykonos_ctrl]

/-!
Concurrency model.  Modelled from the spec: the implementations of
`mpm::types::lockable` (its `lock_guard`-based guard) and of the controller
operation bodies are not under `src/`; only their construction and binding
are.  Following the spec, a controller operation acquires the shared lock,
performs one or more bus transactions, and releases the lock on every exit
path, including a communication failure propagating out mid-transaction.
Threads are interleaved; the events observed at the bus handle are logged.
-/

/-- Control state of one thread inside a controller operation: outside any
operation, holding the guard between transactions, or mid-transaction. -/
inductive Phase
  | idle
  | locked
  | midTx
deriving DecidableEq, Repr

/-- Events observed at the shared lock and at the bus handle. -/
inductive BusEvent
  | acq (t : Nat)
  | start (t : Nat)
  | stop (t : Nat)
  | rel (t : Nat)
deriving DecidableEq, Repr

/-- Global state of one shared bus: per-thread phase, current holder of the
underlying primitive, and the event log. -/
structure SysState where
  phase : Nat → Phase
  holder : Option Nat
  log : List BusEvent

/-- The quiescent state: no operation in flight, lock free, empty log. -/
def initState : SysState :=
  ⟨fun _ => Phase.idle, none, []⟩

/-- Modelled from the spec: one interleaving step of the arbitration protocol.
`acquire` blocks until the primitive is free (only then does the transition
fire); `beginTx`/`endTx` bracket one bus transaction under the guard;
`release` is the guard destructor on the normal exit path; `failTx` is a
communication failure propagating out of the operation, whose transaction
ends and whose guard destructor still releases the lock before the operation
returns. -/
inductive SysStep : SysState → SysState → Prop
  | acquire (s : SysState) (t : Nat) :
      s.phase t = Phase.idle → s.holder = none →
      SysStep s ⟨Function.update s.phase t Phase.locked, some t,
        s.log ++ [BusEvent.acq t]⟩
  | beginTx (s : SysState) (t : Nat) :
      s.phase t = Phase.locked →
      SysStep s ⟨Function.update s.phase t Phase.midTx, s.holder,
        s.log ++ [BusEvent.start t]⟩
  | endTx (s : SysState) (t : Nat) :
      s.phase t = Phase.midTx →
      SysStep s ⟨Function.update s.phase t Phase.locked, s.holder,
        s.log ++ [BusEvent.stop t]⟩
  | release (s : SysState) (t : Nat) :
      s.phase t = Phase.locked →
      SysStep s ⟨Function.update s.phase t Phase.idle, none,
        s.log ++ [BusEvent.rel t]⟩
  | failTx (s : SysState) (t : Nat) :
      s.phase t = Phase.midTx →
      SysStep s ⟨Function.update s.phase t Phase.idle, none,
        s.log ++ [BusEvent.stop t, BusEvent.rel t]⟩

/-- States reachable from the quiescent state by interleaved steps. -/
inductive Reach : SysState → Prop
  | init : Reach initState
  | step {s s2 : SysState} : Reach s → SysStep s s2 → Reach s2

/-- Automaton recognizing serialized logs.  Its state is `none` when the lock
is free, `some (t, false)` when thread `t` holds the lock between
transactions, `some (t, true)` when `t` is mid-transaction.  A log is
serialized when every event is legal from the automaton state reached so far:
acquisitions only of a free lock, transaction and release events only by the
current holder, never a transaction inside another transaction. -/
def logStep : Option (Nat × Bool) → BusEvent → Option (Option (Nat × Bool))
  | none, BusEvent.acq t => some (some (t, false))
  | some (t, false), BusEvent.start t2 =>
      if t2 = t then some (some (t, true)) else none
  | some (t, true), BusEvent.stop t2 =>
      if t2 = t then some (some (t, false)) else none
  | some (t, false), BusEvent.rel t2 =>
      if t2 = t then some none else none
  | _, _ => none

/-- Run the serialization automaton over a log. -/
def runLog : Option (Nat × Bool) → List BusEvent → Option (Option (Nat × Bool))
  | o, [] => some o
  | o, e :: es =>
    match logStep o e with
    | none => none
    | some o2 => runLog o2 es

/-- The automaton state a system state should correspond to. -/
def ownerOf (s : SysState) : Option (Nat × Bool) :=
  match s.holder with
  | none => none
  | some t => some (t, decide (s.phase t = Phase.midTx))

/-- The inductive invariant: non-idle threads are exactly the holder, and the
log is serialized, ending in the automaton state matching the system state. -/
def SysInv (s : SysState) : Prop :=
  (∀ t, s.phase t ≠ Phase.idle → s.holder = some t) ∧
  (∀ t, s.holder = some t → s.phase t ≠ Phase.idle) ∧
  runLog none s.log = some (ownerOf s)

/-- A sample reachable state: thread 0 has acquired the lock. -/
def sample1 : SysState :=
  ⟨Function.update initState.phase 0 Phase.locked, some 0,
    initState.log ++ [BusEvent.acq 0]⟩

/-- A sample reachable state: thread 0 is mid-transaction. -/
def sample2 : SysState :=
  ⟨Function.update sample1.phase 0 Phase.midTx, sample1.holder,
    sample1.log ++ [BusEvent.start 0]⟩

/-- A sample reachable state: thread 0 suffered a communication failure
mid-transaction and its operation returned through the error path. -/
def sample3 : SysState :=
  ⟨Function.update sample2.phase 0 Phase.idle, none,
    sample2.log ++ [BusEvent.stop 0, BusEvent.rel 0]⟩

/-- Members of `magnesium_manager` in declaration order, which is the order of
the member-initializer list of the constructor. -/
inductive Member
  | spi_mutex_m
  | spi_lock_m
  | mykonos_ctrl_m
deriving DecidableEq, Repr

/-- Construction order of the members, read off the member-initializer list:
the mutex primitive first, then the lock wrapper, then the chip controller. -/
def constructionOrder : List Member :=
  [Member.spi_mutex_m, Member.spi_lock_m, Member.mykonos_ctrl_m]

/-- Modelled from the spec and the C++ object model: the destructor of
`magnesium_manager` is implicit, so teardown destroys members in reverse
declaration order. -/
def teardownOrder : List Member :=
  constructionOrder.reverse

/-- Modelled from the spec: teardown of the manager may begin only in a
quiescent state, with no controller operation in flight on the bus. -/
def canTeardown (s : SysState) : Prop :=
  ∀ t, s.phase t = Phase.idle

/-- Construction-time failures of the chip controller. -/
inductive InitError
  | chip_absent
  | chip_misidentified
deriving DecidableEq, Repr

/-- Modelled from the spec: `ad937x_ctrl::make` probes the chip identity
during construction and throws when the chip is absent or misidentified;
`probe` is that outcome (`none` means the expected chip answered). -/
def ad937x_ctrl.tryMake (probe : Option InitError) (m : StdMutex)
    (i : ad937x_iface) (g : gain_pins_t) : Except InitError ad937x_ctrl :=
  match probe with
  | some e => Except.error e
  | none => Except.ok (ad937x_ctrl.make m i g)

/-- Manager lifecycle states observable at the end of a construction
attempt. -/
inductive MgrState
  | Ready
  | Failed
deriving DecidableEq, Repr

/-- The constructor with the fallible controller construction: an exception
thrown by a member initializer aborts construction and propagates to the
caller, so on failure no manager object comes into existence and no
partially constructed controller is reachable. -/
def magnesium_manager.tryConstruct (probe : Option InitError)
    (mykonos_spidev : String) (alloc : Nat) :
    Except InitError (magnesium_manager × Nat) :=
  let mk := make_shared_mutex alloc
  match ad937x_ctrl.tryMake probe mk.1 (make_ad937x_iface mykonos_spidev)
      gain_pins_default with
  | Except.error e => Except.error e
  | Except.ok c =>
    Except.ok ({ _spi_mutex := mk.1.id, _spi_lock := lockable.make mk.1,
                 _mykonos_ctrl := c }, mk.2)

/-- Lifecycle state at the end of a construction attempt. -/
def mgrStateOf (r : Except InitError (magnesium_manager × Nat)) : MgrState :=
  match r with
  | Except.ok _ => MgrState.Ready
  | Except.error _ => MgrState.Failed

/-- A register write observed at the bus handle. -/
structure Transaction where
  addr : Nat
  value : Nat
deriving DecidableEq, Repr

/-- Errors a controller operation reports to its caller. -/
inductive op_error
  | usage_error
  | comm_failure
deriving DecidableEq, Repr

/-- Gain register address of the modelled chip. -/
def gainRegAddr : Nat := 0

/-- Modelled from the spec: `ad937x_ctrl::set_gain` validates its argument
against the chip gain range before touching the bus; out of range, it
reports a usage error synchronously, records no bus transaction, and leaves
the cached chip gain state unchanged; in range, it writes the gain register
under the usual transaction discipline.  The range 0..30 dB stands in for
the chip gain range; the property depends only on some values lying outside
it. -/
def ad937x_ctrl.set_gain (gain : Int) (chip_gain : Nat)
    (bus : List Transaction) :
    Except op_error Unit × Nat × List Transaction :=
  if gain < 0 ∨ 30 < gain then
    (Except.error op_error.usage_error, chip_gain, bus)
  else
    (Except.ok (), gain.toNat, bus ++ [⟨gainRegAddr, gain.toNat⟩])

/-!
Theorems.  First the invariant machinery shared by the concurrency claims,
then one theorem per claim, each with its witness where the statement
carries hypotheses.
-/

theorem runLog_append (l1 l2 : List BusEvent) (o : Option (Nat × Bool)) :
    runLog o (l1 ++ l2) =
      match runLog o l1 with
      | none => none
      | some o2 => runLog o2 l2 := by
  induction l1 generalizing o with
  | nil => simp [runLog]
  | cons e es ih =>
    simp only [List.cons_append, runLog]
    cases logStep o e with
    | none => rfl
    | some o2 => exact ih o2

theorem inv_init : SysInv initState := by
  refine ⟨?_, ?_, rfl⟩
  · intro t ht; exact absurd rfl ht
  · intro t ht; simp [initState] at ht

theorem inv_step {s s2 : SysState} (hs : SysInv s) (hstep : SysStep s s2) :
    SysInv s2 := by
  obtain ⟨h1, h2, h3⟩ := hs
  cases hstep with
  | acquire t hidle hfree =>
    refine ⟨?_, ?_, ?_⟩
    · intro t2 ht2
      by_cases he : t2 = t
      · simp [he]
      · simp only [Function.update_noteq he] at ht2
        exact absurd (h1 t2 ht2) (by simp [hfree])
    · intro t2 ht2
      simp only [Option.some_inj] at ht2
      subst ht2
      simp [Function.update_same]
    · rw [runLog_append, h3]
      simp [ownerOf, hfree, logStep, Function.update_same, runLog]
  | beginTx t hlocked =>
    have hhold : s.holder = some t := h1 t (by simp [hlocked])
    refine ⟨?_, ?_, ?_⟩
    · intro t2 ht2
      by_cases he : t2 = t
      · simp [he, hhold]
      · simp only [Function.update_noteq he] at ht2
        exact h1 t2 ht2
    · intro t2 ht2
      rw [hhold] at ht2
      simp only [Option.some_inj] at ht2
      subst ht2
      simp [Function.update_same]
    · rw [runLog_append, h3]
      simp [ownerOf, hhold, hlocked, logStep, Function.update_same, runLog]
  | endTx t hmid =>
    have hhold : s.holder = some t := h1 t (by simp [hmid])
    refine ⟨?_, ?_, ?_⟩
    · intro t2 ht2
      by_cases he : t2 = t
      · simp [he, hhold]
      · simp only [Function.update_noteq he] at ht2
        exact h1 t2 ht2
    · intro t2 ht2
      rw [hhold] at ht2
      simp only [Option.some_inj] at ht2
      subst ht2
      simp [Function.update_same]
    · rw [runLog_append, h3]
      simp [ownerOf, hhold, hmid, logStep, Function.update_same, runLog]
  | release t hlocked =>
    have hhold : s.holder = some t := h1 t (by simp [hlocked])
    refine ⟨?_, ?_, ?_⟩
    · intro t2 ht2
      by_cases he : t2 = t
      · subst he
        simp only [Function.update_same] at ht2
        exact absurd rfl ht2
      · simp only [Function.update_noteq he] at ht2
        have := h1 t2 ht2
        rw [hhold] at this
        simp only [Option.some_inj] at this
        exact absurd this.symm he
    · intro t2 ht2
      simp at ht2
    · rw [runLog_append, h3]
      simp [ownerOf, hhold, hlocked, logStep, Function.update_same, runLog]
  | failTx t hmid =>
    have hhold : s.holder = some t := h1 t (by simp [hmid])
    refine ⟨?_, ?_, ?_⟩
    · intro t2 ht2
      by_cases he : t2 = t
      · subst he
        simp only [Function.update_same] at ht2
        exact absurd rfl ht2
      · simp only [Function.update_noteq he] at ht2
        have := h1 t2 ht2
        rw [hhold] at this
        simp only [Option.some_inj] at this
        exact absurd this.symm he
    · intro t2 ht2
      simp at ht2
    · rw [runLog_append, h3]
      simp [ownerOf, hhold, hmid, logStep, Function.update_same, runLog]

theorem inv_of_reach {s : SysState} (h : Reach s) : SysInv s := by
  induction h with
  | init => exact inv_init
  | step _ hstep ih => exact inv_step ih hstep

theorem sample1_reach : Reach sample1 :=
  Reach.step Reach.init (SysStep.acquire initState 0 rfl rfl)

theorem sample2_reach : Reach sample2 :=
  Reach.step sample1_reach (SysStep.beginTx sample1 0 rfl)

theorem sample3_reach : Reach sample3 :=
  Reach.step sample2_reach (SysStep.failTx sample2 0 rfl)

/-- C1: every lock wrapper and every controller a single construction binds
wraps the one fresh primitive the manager allocates: `_spi_lock` and every
exposed controller name the same mutex as `_spi_mutex`, that mutex is the
single fresh allocation of the construction (its identifier is the old
counter), and exactly one primitive is allocated (counter advances by one). -/
theorem C1_one_primitive_per_bus (d : String) (alloc : Nat) :
    ((magnesium_manager.construct d alloc).1._spi_lock.mutex =
      (magnesium_manager.construct d alloc).1._spi_mutex) ∧
    (∀ c ∈ (magnesium_manager.construct d alloc).1.controllers,
      c.spi_mutex = (magnesium_manager.construct d alloc).1._spi_mutex) ∧
    (magnesium_manager.construct d alloc).1._spi_mutex = alloc ∧
    (magnesium_manager.construct d alloc).2 = alloc + 1 := by
  refine ⟨rfl, ?_, rfl, rfl⟩
  intro c hc
  simp [magnesium_manager.construct, magnesium_manager.controllers] at hc
  subst hc
  rfl

theorem C1_one_primitive_per_bus_witness :
    ((magnesium_manager.construct "spidev0.0" 0).1._spi_lock.mutex =
      (magnesium_manager.construct "spidev0.0" 0).1._spi_mutex) ∧
    (∀ c ∈ (magnesium_manager.construct "spidev0.0" 0).1.controllers,
      c.spi_mutex = (magnesium_manager.construct "spidev0.0" 0).1._spi_mutex) ∧
    (magnesium_manager.construct "spidev0.0" 0).1._spi_mutex = 0 ∧
    (magnesium_manager.construct "spidev0.0" 0).2 = 0 + 1 :=
  C1_one_primitive_per_bus "spidev0.0" 0

/-- C2: in every state reachable under arbitrary interleaving, at most one
thread is inside a controller operation on the shared bus (mutual exclusion),
and the event log observed at the bus handle is accepted by the serialization
automaton: every transaction is bracketed by the acquisition and release of
the single holder, no transaction event of another thread falls inside it,
and transactions are grouped under their acquisitions in acquisition order. -/
theorem C2_serialized_transactions (s : SysState) (h : Reach s) :
    (∀ t1 t2, s.phase t1 ≠ Phase.idle → s.phase t2 ≠ Phase.idle → t1 = t2) ∧
    runLog none s.log = some (ownerOf s) := by
  obtain ⟨h1, h2, h3⟩ := inv_of_reach h
  refine ⟨?_, h3⟩
  intro t1 t2 ha hb
  have e1 := h1 t1 ha
  have e2 := h1 t2 hb
  rw [e1] at e2
  exact Option.some_inj.mp e2

theorem C2_serialized_transactions_witness :
    (∀ t1 t2, sample1.phase t1 ≠ Phase.idle → sample1.phase t2 ≠ Phase.idle →
      t1 = t2) ∧
    runLog none sample1.log = some (ownerOf sample1) :=
  C2_serialized_transactions sample1 sample1_reach

/-- C3: teardown destroys the chip controller first, then the lock wrapper,
and releases the mutex primitive last — the exact reverse of the construction
order — and in any reachable quiescent state from which teardown may begin,
no guard is active (the primitive has no holder). -/
theorem C3_teardown_reverse_of_construction (s : SysState) (h : Reach s)
    (hq : canTeardown s) :
    teardownOrder =
      [Member.mykonos_ctrl_m, Member.spi_lock_m, Member.spi_mutex_m] ∧
    teardownOrder = constructionOrder.reverse ∧
    s.holder = none := by
  obtain ⟨h1, h2, h3⟩ := inv_of_reach h
  refine ⟨rfl, rfl, ?_⟩
  cases hh : s.holder with
  | none => rfl
  | some t => exact absurd (hq t) (h2 t hh)

theorem C3_teardown_reverse_of_construction_witness :
    canTeardown initState ∧
    (teardownOrder =
        [Member.mykonos_ctrl_m, Member.spi_lock_m, Member.spi_mutex_m] ∧
      teardownOrder = constructionOrder.reverse ∧
      initState.holder = none) :=
  ⟨fun _ => rfl,
    C3_teardown_reverse_of_construction initState Reach.init (fun _ => rfl)⟩

/-- C4: construction is all-or-nothing.  The attempt ends `Ready` exactly
when the controller construction succeeds, in which case the result is the
fully constructed manager; any controller construction failure ends in the
terminal `Failed` state carrying only the error — no manager value and hence
no partially constructed controller is reachable from the result. -/
theorem C4_all_or_nothing (probe : Option InitError) (d : String) (a : Nat) :
    (mgrStateOf (magnesium_manager.tryConstruct probe d a) = MgrState.Ready ↔
      probe = none) ∧
    (probe = none →
      magnesium_manager.tryConstruct probe d a =
        Except.ok (magnesium_manager.construct d a)) ∧
    (∀ e, probe = some e →
      magnesium_manager.tryConstruct probe d a = Except.error e) := by
  cases probe with
  | none =>
    refine ⟨⟨fun _ => rfl, fun _ => rfl⟩, fun _ => rfl, ?_⟩
    intro e he
    cases he
  | some e0 =>
    refine ⟨⟨?_, ?_⟩, ?_, ?_⟩
    · intro h
      cases h
    · intro h
      cases h
    · intro h
      cases h
    · intro e he
      cases he
      rfl

theorem C4_all_or_nothing_witness :
    (mgrStateOf (magnesium_manager.tryConstruct (some InitError.chip_absent)
        "spidev0.0" 0) = MgrState.Ready ↔
      (some InitError.chip_absent = none)) ∧
    ((some InitError.chip_absent = none) →
      magnesium_manager.tryConstruct (some InitError.chip_absent)
          "spidev0.0" 0 =
        Except.ok (magnesium_manager.construct "spidev0.0" 0)) ∧
    (∀ e, (some InitError.chip_absent = some e) →
      magnesium_manager.tryConstruct (some InitError.chip_absent)
          "spidev0.0" 0 = Except.error e) :=
  C4_all_or_nothing (some InitError.chip_absent) "spidev0.0" 0

/-- C5: an operation never returns to its caller still holding the lock: in
every reachable state, a thread that is back to idle (its operation returned,
normally or through failure propagation) is not the holder of the bus
primitive.  The step relation includes the failure exit (`failTx`), so this
covers error propagation mid-transaction as well as normal completion. -/
theorem C5_release_on_every_exit (s : SysState) (h : Reach s) (t : Nat)
    (ht : s.phase t = Phase.idle) : s.holder ≠ some t := by
  obtain ⟨h1, h2, h3⟩ := inv_of_reach h
  intro hh
  exact h2 t hh ht

theorem C5_release_on_every_exit_witness :
    sample3.phase 0 = Phase.idle ∧ sample3.holder ≠ some 0 :=
  ⟨rfl, C5_release_on_every_exit sample3 sample3_reach 0 rfl⟩

/-- C6: tearing a session down and constructing a fresh manager for the same
board description yields a controller with equivalent initial state: the new
session allocates a fresh primitive, distinct from the old one, and in any
lock map where unallocated primitives are free — whatever lock state the old
session may have left on its own primitive — the fresh primitive starts
free, so no lock state leaks into the new session. -/
theorem C6_fresh_session_no_leaked_lock (d : String) (a : Nat) (L : LockMap)
    (hL : ∀ i, (magnesium_manager.construct d a).2 ≤ i → L i = none) :
    L ((magnesium_manager.construct d
        (magnesium_manager.construct d a).2).1._spi_mutex) = none ∧
    ((magnesium_manager.construct d
        (magnesium_manager.construct d a).2).1._spi_mutex ≠
      (magnesium_manager.construct d a).1._spi_mutex) ∧
    ((magnesium_manager.construct d
        (magnesium_manager.construct d a).2).1._mykonos_ctrl.iface =
      (magnesium_manager.construct d a).1._mykonos_ctrl.iface) ∧
    ((magnesium_manager.construct d
        (magnesium_manager.construct d a).2).1._mykonos_ctrl.gain_pins =
      (magnesium_manager.construct d a).1._mykonos_ctrl.gain_pins) := by
  refine ⟨?_, ?_, rfl, rfl⟩
  · exact hL (a + 1) (Nat.le_refl _)
  · show a + 1 ≠ a
    exact Nat.succ_ne_self a

theorem C6_fresh_session_no_leaked_lock_witness :
    (∀ i, (magnesium_manager.construct "spidev0.0" 0).2 ≤ i →
      (fun _ => (none : Option Nat)) i = none) ∧
    ((fun _ => (none : Option Nat))
        ((magnesium_manager.construct "spidev0.0"
          (magnesium_manager.construct "spidev0.0" 0).2).1._spi_mutex) =
        none ∧
      ((magnesium_manager.construct "spidev0.0"
          (magnesium_manager.construct "spidev0.0" 0).2).1._spi_mutex ≠
        (magnesium_manager.construct "spidev0.0" 0).1._spi_mutex) ∧
      ((magnesium_manager.construct "spidev0.0"
          (magnesium_manager.construct "spidev0.0" 0).2).1._mykonos_ctrl.iface =
        (magnesium_manager.construct "spidev0.0" 0).1._mykonos_ctrl.iface) ∧
      ((magnesium_manager.construct "spidev0.0"
          (magnesium_manager.construct
            "spidev0.0" 0).2).1._mykonos_ctrl.gain_pins =
        (magnesium_manager.construct "spidev0.0" 0).1._mykonos_ctrl.gain_pins)) :=
  ⟨fun _ _ => rfl,
    C6_fresh_session_no_leaked_lock "spidev0.0" 0 (fun _ => none)
      (fun _ _ => rfl)⟩

/-- C7: calling `set_gain` with an out-of-range argument returns a usage
error synchronously, detected before any bus transaction: the bus log gains
no transaction and the chip state is unchanged. -/
theorem C7_usage_error_before_any_transaction (g : Int) (chip : Nat)
    (bus : List Transaction) (h : g < 0 ∨ 30 < g) :
    (ad937x_ctrl.set_gain g chip bus).1 =
      Except.error op_error.usage_error ∧
    (ad937x_ctrl.set_gain g chip bus).2.1 = chip ∧
    (ad937x_ctrl.set_gain g chip bus).2.2 = bus := by
  have hset : ad937x_ctrl.set_gain g chip bus =
      (Except.error op_error.usage_error, chip, bus) := by
    unfold ad937x_ctrl.set_gain
    rw [if_pos h]
  rw [hset]
  exact ⟨rfl, rfl, rfl⟩

theorem C7_usage_error_before_any_transaction_witness :
    ((-5 : Int) < 0 ∨ 30 < (-5 : Int)) ∧
    ((ad937x_ctrl.set_gain (-5) 0 []).1 =
        Except.error op_error.usage_error ∧
      (ad937x_ctrl.set_gain (-5) 0 []).2.1 = 0 ∧
      (ad937x_ctrl.set_gain (-5) 0 []).2.2 = []) :=
  ⟨Or.inl (by decide),
    C7_usage_error_before_any_transaction (-5) 0 [] (Or.inl (by decide))⟩

/-- C8: two manager constructions allocate distinct primitives, so locking one
manager's bus leaves the other manager's bus untouched: operations on their
controllers are never serialized against each other. -/
theorem C8_distinct_managers_distinct_primitives (d1 d2 : String) (a : Nat) :
    ((magnesium_manager.construct d1 a).1._spi_mutex ≠
      (magnesium_manager.construct d2
        (magnesium_manager.construct d1 a).2).1._spi_mutex) ∧
    (∀ (L : LockMap) (t : Nat),
      mutexAcquire L ((magnesium_manager.construct d1 a).1._spi_mutex) t
        ((magnesium_manager.construct d2
          (magnesium_manager.construct d1 a).2).1._spi_mutex) =
      L ((magnesium_manager.construct d2
          (magnesium_manager.construct d1 a).2).1._spi_mutex)) := by
  constructor
  · simp [magnesium_manager.construct, make_shared_mutex]
  · intro L t
    simp [magnesium_manager.construct, make_shared_mutex, mutexAcquire]

theorem C8_distinct_managers_distinct_primitives_witness :
    ((magnesium_manager.construct "spidev0.0" 0).1._spi_mutex ≠
      (magnesium_manager.construct "spidev0.1"
        (magnesium_manager.construct "spidev0.0" 0).2).1._spi_mutex) ∧
    (∀ (L : LockMap) (t : Nat),
      mutexAcquire L
        ((magnesium_manager.construct "spidev0.0" 0).1._spi_mutex) t
        ((magnesium_manager.construct "spidev0.1"
          (magnesium_manager.construct "spidev0.0" 0).2).1._spi_mutex) =
      L ((magnesium_manager.construct "spidev0.1"
          (magnesium_manager.construct "spidev0.0" 0).2).1._spi_mutex)) :=
  C8_distinct_managers_distinct_primitives "spidev0.0" "spidev0.1" 0

/-- C9: a constructed manager binds exactly one chip controller (the Mykonos
`ad937x_ctrl`) to its single SPI-bus primitive. -/
theorem C9_exactly_one_controller (d : String) (a : Nat) :
    ((magnesium_manager.construct d a).1.controllers).length = 1 ∧
    (magnesium_manager.construct d a).1.controllers =
      [(magnesium_manager.construct d a).1._mykonos_ctrl] ∧
    (∀ c ∈ (magnesium_manager.construct d a).1.controllers,
      c.spi_mutex = (magnesium_manager.construct d a).1._spi_mutex) := by
  refine ⟨rfl, rfl, ?_⟩
  intro c hc
  simp [magnesium_manager.construct, magnesium_manager.controllers] at hc
  subst hc
  rfl

theorem C9_exactly_one_controller_witness :
    ((magnesium_manager.construct "spidev0.0" 0).1.controllers).length = 1 ∧
    (magnesium_manager.construct "spidev0.0" 0).1.controllers =
      [(magnesium_manager.construct "spidev0.0" 0).1._mykonos_ctrl] ∧
    (∀ c ∈ (magnesium_manager.construct "spidev0.0" 0).1.controllers,
      c.spi_mutex = (magnesium_manager.construct "spidev0.0" 0).1._spi_mutex) :=
  C9_exactly_one_controller "spidev0.0" 0

/-- C10: whatever device name is passed to the constructor, the gain-pin
configuration handed to the controller is the default-constructed (empty)
`gain_pins_t()`; the constructor's only input is the SPI device path, which
determines the transport but never the gain pins. -/
theorem C10_default_gain_pins (d : String) (a : Nat) :
    ((magnesium_manager.construct d a).1._mykonos_ctrl).gain_pins =
      gain_pins_default ∧
    ((magnesium_manager.construct d a).1._mykonos_ctrl).gain_pins.pins = [] ∧
    ((magnesium_manager.construct d a).1._mykonos_ctrl).iface =
      make_ad937x_iface d := by
  exact ⟨rfl, rfl, rfl⟩
